import Mathlib

/-!
Verification of the swagger-generator translation engine (src/main.rs).

The Rust source is shallowly embedded below.  `HashMap<String, V>` is
modelled as an association list `List (String × V)` whose list order stands
for the iteration order the hash map happens to produce during one run
(Rust's std `HashMap` iteration order is not specified and varies between
processes).  `serde_json::Value` is modelled by the inductive `Value`.
Code that can panic (`HashMap` indexing with `[]`, `Option::unwrap`,
`Vec` indexing) is modelled with `Option`, `none` standing for the panic.
The wall-clock date obtained from `chrono::Local::now()` and the
`read_dir("output/interfaces")` directory listing are passed in as explicit
parameters, since they are environment inputs of the program.
Rust `char::to_uppercase`/`to_lowercase` (Unicode) are modelled by the
ASCII `Char.toUpper`/`Char.toLower`; every string the claims touch is ASCII.
`String::is_empty` is modelled as equality with `""`.
-/

set_option maxRecDepth 8192

namespace SwaggerGen

/-- The character `{` (written via its code point to keep brace handling explicit). -/
def lbrace : Char := Char.ofNat 123

/-- The character `}`. -/
def rbrace : Char := Char.ofNat 125

/-- Rust `str::split(c)`: splitting on a separator character, keeping empty pieces;
`"".split(c)` yields one empty piece. -/
def splitCharList (c : Char) : List Char → List (List Char)
  | [] => [[]]
  | x :: xs =>
    if x = c then [] :: splitCharList c xs
    else
      match splitCharList c xs with
      | [] => [[x]]
      | h :: t => (x :: h) :: t

/-- Rust `str::split(c)` on a `String`. -/
def rust_split (c : Char) (s : String) : List String :=
  (splitCharList c s.data).map (fun l => ⟨l⟩)

/-- Rust `str::starts_with(c)` for a single character. -/
def startsWithChar (s : String) (c : Char) : Bool :=
  match s.data with
  | [] => false
  | x :: _ => x == c

/-- Rust `str::ends_with(c)` for a single character. -/
def endsWithChar (s : String) (c : Char) : Bool :=
  match s.data.getLast? with
  | none => false
  | some x => x == c

/-- Rust `&segment[1..segment.len() - 1]`: the segment without its first and
last character (only applied when those are the single-byte `{` and `}`). -/
def braceInner (s : String) : String := ⟨(s.data.drop 1).dropLast⟩

/-- Rust `str::starts_with(pat)` for a string pattern. -/
def startsWithStr (s pat : String) : Bool := pat.data.isPrefixOf s.data

/-- Fuel-indexed worker for `rust_replace`: replaces every non-overlapping,
leftmost-first occurrence of `pat` in the remaining input.  One unit of fuel
is spent per step; since `pat` is nonempty at every call site, each step
consumes at least one input character, so fuel `= input length` suffices. -/
def replaceAllAux : Nat → List Char → List Char → List Char → List Char
  | 0, s, _, _ => s
  | _ + 1, [], _, _ => []
  | fuel + 1, c :: rest, pat, rep =>
    if pat.isPrefixOf (c :: rest) then
      rep ++ replaceAllAux fuel ((c :: rest).drop pat.length) pat rep
    else
      c :: replaceAllAux fuel rest pat rep

/-- Rust `str::replace(pat, rep)`: replaces all non-overlapping occurrences,
scanning left to right.  (Every pattern used by the program is nonempty; the
empty-pattern guard only keeps the model total.) -/
def rust_replace (s pat rep : String) : String :=
  if pat.data = [] then s
  else ⟨replaceAllAux s.data.length s.data pat.data rep.data⟩

/-- Rust `Vec::join(sep)`. -/
def join_with (sep : String) : List String → String
  | [] => ""
  | [x] => x
  | x :: y :: rest => x ++ sep ++ join_with sep (y :: rest)

/-- Rust `str::to_lowercase` (ASCII model). -/
def rust_to_lowercase (s : String) : String := ⟨s.data.map Char.toLower⟩

/-- Lines 250-254 of main.rs: capitalize the first character of a word,
leaving the rest unchanged (`c.to_uppercase().chain(chars).collect()`,
ASCII model). -/
def capitalize (s : String) : String :=
  match s.data with
  | [] => ""
  | c :: rest => ⟨c.toUpper :: rest⟩

/-- Association-list lookup, modelling `HashMap::get` /
`serde_json::Map` key lookup. -/
def lookupKV {α : Type} (k : String) : List (String × α) → Option α
  | [] => none
  | (k', v) :: rest => if k' = k then some v else lookupKV k rest

/-- `serde_json::Value`, restricted to the shapes the program inspects. -/
inductive Value where
  | vstr : String → Value
  | vbool : Bool → Value
  | vnum : Int → Value
  | varr : List Value → Value
  | vobj : List (String × Value) → Value
  | vnull : Value

/-- `serde_json::Value::as_str`. -/
def Value.as_str : Value → Option String
  | .vstr s => some s
  | _ => none

/-- `serde_json::Value::get(key)`: key lookup on objects, `None` otherwise. -/
def Value.get : Value → String → Option Value
  | .vobj fields, k => lookupKV k fields
  | _, _ => none

/-- struct Property (main.rs lines 25-33).  `additional` is the
`#[serde(flatten)]` map holding e.g. the `items` descriptor of arrays. -/
structure Property where
  property_type : Option String
  format : Option String
  additional : List (String × Value)
  reference : Option String

/-- struct Definition (main.rs lines 17-23). -/
structure Definition where
  definition_type : Option String
  properties : Option (List (String × Property))
  required : Option (List String)

/-- struct Schema (main.rs lines 57-63). -/
structure Schema where
  schema_type : Option String
  reference : Option String
deriving DecidableEq

/-- struct Response (main.rs lines 50-55). -/
structure Response where
  description : String
  response_schema : Option Schema
deriving DecidableEq

/-- struct Operation (main.rs lines 43-48).  `responses` is a `HashMap`
from status-code string to `Response`. -/
structure Operation where
  operation_id : Option String
  summary : Option String
  responses : List (String × Response)
deriving DecidableEq

/-- struct PathItem (main.rs lines 35-41). -/
structure PathItem where
  get : Option Operation
  post : Option Operation
  put : Option Operation
  delete : Option Operation
deriving DecidableEq

/-- struct Swagger (main.rs lines 7-15). -/
structure Swagger where
  info : List (String × Value)
  definitions : List (String × Definition)
  paths : List (String × PathItem)
  schemes : Option (List String)
  host : Option String
  basePath : Option String

/-- generate_info_comment (main.rs lines 149-163).  The three
`swagger.info[...]` indexings and `.as_str().unwrap()` calls panic when the
key is absent or the value is not a string; both panics are modelled as
`none`.  `generated_date` stands for `chrono::Local::now().format("%Y-%m-%d")`. -/
def generate_info_comment (swagger : Swagger) (generated_date : String) : Option String :=
  match lookupKV "version" swagger.info with
  | none => none
  | some v =>
    match v.as_str with
    | none => none
    | some version =>
      match lookupKV "title" swagger.info with
      | none => none
      | some t =>
        match t.as_str with
        | none => none
        | some title =>
          match lookupKV "description" swagger.info with
          | none => none
          | some d =>
            match d.as_str with
            | none => none
            | some description =>
              some ("/*\n * This file was generated by swagger-genereator\n * Do not modify this file manually.\n * Version: "
                ++ version ++ "\n * Title: " ++ title ++ "\n * Description: " ++ description
                ++ "\n * Author: Muhtalip Dede\n * Generated on: " ++ generated_date ++ " */\n\n")

/-- The `ts_type` match of generate_typescript_interface (main.rs lines
107-132).  `&prop.additional["items"]` is a `HashMap` indexing that panics
when no `items` entry exists (modelled as `none`); all other arms always
produce a type string. -/
def ts_type (prop : Property) : Option String :=
  match prop.property_type with
  | some "integer" => some "number"
  | some "string" => some "string"
  | some "boolean" => some "boolean"
  | some "array" =>
    match lookupKV "items" prop.additional with
    | none => none
    | some items =>
      some (match (items.get "type").bind Value.as_str with
        | some "integer" => "number[]"
        | some "string" => "string[]"
        | some "boolean" => "boolean[]"
        | _ => "any[]")
  | some "object" =>
    some (match prop.reference with
      | some ref_name => ref_name
      | none => "any")
  | _ => some "any"

/-- The `optional` marker of generate_typescript_interface (main.rs lines
133-141): `required.as_ref().map_or(false, |r| !r.contains(prop_name))`
chooses `"?"`, otherwise the marker is empty. -/
def optional_marker (required : Option (List String)) (prop_name : String) : String :=
  if (match required with
      | some r => !(r.contains prop_name)
      | none => false) then "?" else ""

/-- One emitted interface line (main.rs line 142). -/
def render_line (required : Option (List String)) (prop_name : String) (t : String) : String :=
  "    " ++ prop_name ++ optional_marker required prop_name ++ ": " ++ t ++ ";\n"

/-- The property loop of generate_typescript_interface (main.rs lines
106-143), in the iteration order of the properties map. -/
def render_properties (required : Option (List String)) : List (String × Property) → Option String
  | [] => some ""
  | (prop_name, prop) :: rest =>
    match ts_type prop with
    | none => none
    | some t =>
      match render_properties required rest with
      | none => none
      | some restS => some (render_line required prop_name t ++ restS)

/-- generate_typescript_interface (main.rs lines 98-147). -/
def generate_typescript_interface (swagger : Swagger) (name : String) (definition : Definition)
    (generated_date : String) : Option String :=
  match generate_info_comment swagger generated_date with
  | none => none
  | some header =>
    match definition.properties with
    | none => some (header ++ "export interface " ++ name ++ " \x7b\n" ++ "\x7d\n")
    | some props =>
      match render_properties definition.required props with
      | none => none
      | some body => some (header ++ "export interface " ++ name ++ " \x7b\n" ++ body ++ "\x7d\n")

/-- The `fallback_operation_id` binding (main.rs lines 213-217): path split
on `/`, empty segments and segments starting with `{` discarded, the rest
joined with `_`. -/
def fallback_operation_id (path : String) : String :=
  join_with "_" ((rust_split '/' path).filter
    (fun s => decide (¬ s = "") && !(startsWithChar s lbrace)))

/-- The `operation_id` / `final_operation_id` bindings (main.rs lines
208-222): a missing id defaults to `"unknown"`, and an id equal to
`"unknown"` is replaced by the path-derived fallback. -/
def final_operation_id (operation : Operation) (path : String) : String :=
  let operation_id := operation.operation_id.getD "unknown"
  if operation_id = "unknown" then fallback_operation_id path else operation_id

/-- extract_path_params worker (main.rs lines 297-305): only segments that
both start with `{` and end with `}` contribute, in order. -/
def extract_path_params_list : List String → List String
  | [] => []
  | segment :: rest =>
    if startsWithChar segment lbrace && endsWithChar segment rbrace then
      braceInner segment :: extract_path_params_list rest
    else
      extract_path_params_list rest

/-- extract_path_params (main.rs lines 297-305). -/
def extract_path_params (path : String) : List String :=
  extract_path_params_list (rust_split '/' path)

/-- The `params_declaration` binding (main.rs lines 225-234). -/
def params_declaration (path_params : List String) : String :=
  if path_params = [] then ""
  else join_with ", " (path_params.map (fun param => param ++ ": string")) ++ ", "

/-- The `data_param` binding (main.rs lines 236-240). -/
def data_param (method : String) : String :=
  if method = "get" || method = "delete" then "" else "data?: any, "

/-- The body argument (main.rs line 291): `if data_param.is_empty() { "" }
else { "data, " }`. -/
def body_arg (method : String) : String :=
  if data_param method = "" then "" else "data, "

/-- The `formatted_path` binding (main.rs lines 242-244): for each extracted
parameter, every occurrence of `{param}` in the accumulated path is replaced
by `${param}`. -/
def formatted_path (path : String) (path_params : List String) : String :=
  path_params.foldl
    (fun acc param =>
      rust_replace acc ("\x7b" ++ param ++ "\x7d") ("$\x7b" ++ param ++ "\x7d"))
    path

/-- The `method_name` binding before the suffix step (main.rs lines
246-257): lowercase method followed by the camel-cased final operation id
(split on `_`, each word capitalized, concatenated). -/
def camel_case (s : String) : String :=
  String.join ((rust_split '_' s).map capitalize)

/-- Lowercased method plus camel-cased base name (main.rs lines 246-257). -/
def base_method_name (method : String) (operation : Operation) (path : String) : String :=
  rust_to_lowercase method ++ camel_case (final_operation_id operation path)

/-- The suffix step (main.rs lines 259-261): append `ById` when
`params_declaration` is nonempty. -/
def full_method_name (method : String) (operation : Operation) (path : String) : String :=
  let base := base_method_name method operation path
  if params_declaration (extract_path_params path) = "" then base
  else base ++ "ById"

/-- The `response_schema` chain (main.rs lines 263-268) before prefix
handling: the `"200"` response's schema's `$ref`, if all present. -/
def ref200 (operation : Operation) : Option String :=
  ((lookupKV "200" operation.responses).bind Response.response_schema).bind Schema.reference

/-- The `response_schema` value after the prefix step (main.rs lines
263-272): defaulting to `"any"`, then — only when the string starts with
`#/definitions/` — removing every occurrence of `#/definitions/` via
`str::replace`. -/
def response_schema_name (operation : Operation) : String :=
  let response_schema :=
    match ref200 operation with
    | none => "any"
    | some r => r
  if startsWithStr response_schema "#/definitions/" then
    rust_replace response_schema "#/definitions/" ""
  else
    response_schema

/-- The `response_type` binding (main.rs lines 274-278). -/
def response_type (operation : Operation) (lang : String) : String :=
  if lang = "typescript" then "Promise<" ++ response_schema_name operation ++ ">"
  else "Promise<any>"

/-- generate_service_method (main.rs lines 207-295): the final `format!`
assembly of one exported async function. -/
def generate_service_method (method path : String) (operation : Operation) (lang : String) : String :=
  "export async function " ++ full_method_name method operation path
    ++ "(" ++ params_declaration (extract_path_params path) ++ data_param method
    ++ "config?: any): " ++ response_type operation lang
    ++ " \x7b\n    const response = await axios." ++ method
    ++ "(`" ++ formatted_path path (extract_path_params path) ++ "`, "
    ++ body_arg method ++ "config);\n    return response.data;\n\x7d\n\n"

/-- The per-path emission (main.rs lines 189-202): the four optional
operations, in the fixed order get, post, put, delete. -/
def path_item_methods (lang : String) (pr : String × PathItem) : String :=
  (match pr.2.get with
   | none => ""
   | some op => generate_service_method "get" pr.1 op lang)
  ++ (match pr.2.post with
      | none => ""
      | some op => generate_service_method "post" pr.1 op lang)
  ++ (match pr.2.put with
      | none => ""
      | some op => generate_service_method "put" pr.1 op lang)
  ++ (match pr.2.delete with
      | none => ""
      | some op => generate_service_method "delete" pr.1 op lang)

/-- The paths loop of generate_service (main.rs lines 189-202), in the
iteration order of the paths map. -/
def service_methods (paths : List (String × PathItem)) (lang : String) : String :=
  String.join (paths.map (path_item_methods lang))

/-- The import block of generate_service (main.rs lines 178-187):
`interface_files` is the `read_dir("output/interfaces")` listing, in the
order the directory iterator produced it. -/
def import_block (interface_files : List String) : String :=
  String.join (interface_files.map (fun f =>
    "import \x7b " ++ rust_replace f ".ts" "" ++ " \x7d from './interfaces/"
      ++ rust_replace f ".ts" "" ++ "';\n"))

/-- generate_service (main.rs lines 165-205).  The `unwrap`s on `schemes`,
`host` and `basePath`, and the `[0]` indexing into the schemes vector, panic
when the data is absent; modelled as `none`. -/
def generate_service (swagger : Swagger) (lang : String) (generated_date : String)
    (interface_files : List String) : Option String :=
  match generate_info_comment swagger generated_date with
  | none => none
  | some header =>
    match swagger.schemes with
    | none => none
    | some schemes =>
      match schemes with
      | [] => none
      | scheme0 :: _ =>
        match swagger.host with
        | none => none
        | some host =>
          match swagger.basePath with
          | none => none
          | some basePath =>
            some (header ++ "import axios from 'axios';\n\n"
              ++ "axios.defaults.baseURL = '" ++ scheme0 ++ "://" ++ host ++ basePath ++ "';\n\n"
              ++ (if lang = "typescript" then import_block interface_files ++ "\n" else "")
              ++ service_methods swagger.paths lang)

/-- The interfaces loop of main (main.rs lines 74-78): one artifact per
definition, in the iteration order of the definitions map; any panic aborts
the run. -/
def generate_interfaces (swagger : Swagger) (generated_date : String) :
    List (String × Definition) → Option (List (String × String))
  | [] => some []
  | (name, definition) :: rest =>
    match generate_typescript_interface swagger name definition generated_date with
    | none => none
    | some text =>
      match generate_interfaces swagger generated_date rest with
      | none => none
      | some restL => some ((name, text) :: restL)

/-- The whole generation run after parsing (main.rs lines 72-88 without the
file writes): all interface artifacts plus the typescript service module. -/
def generate_all (swagger : Swagger) (generated_date : String)
    (interface_files : List String) : Option (List (String × String) × String) :=
  match generate_interfaces swagger generated_date swagger.definitions with
  | none => none
  | some interfaces =>
    match generate_service swagger "typescript" generated_date interface_files with
    | none => none
    | some service => some (interfaces, service)


/-! ## Concrete fixtures used by the sanity checks, witnesses and counterexamples -/

/-- A response schema referencing `#/definitions/User`. -/
def schemaUser : Schema := { schema_type := none, reference := some "#/definitions/User" }

/-- A `"200"` response carrying `schemaUser`. -/
def respUser : Response := { description := "ok", response_schema := some schemaUser }

/-- A get operation with no operation id and a `"200"` response referencing `User`. -/
def opGetUser : Operation := { operation_id := none, summary := none, responses := [("200", respUser)] }

/-- An integer property. -/
def propInt : Property := { property_type := some "integer", format := none, additional := [], reference := none }

/-- A string property. -/
def propStr : Property := { property_type := some "string", format := none, additional := [], reference := none }

/-- The `User` schema of the specification's end-to-end example:
`{id: integer, name: string}`, required `["id"]`. -/
def defnUser : Definition := { definition_type := some "object", properties := some [("id", propInt), ("name", propStr)], required := some ["id"] }

/-- An operation with no id and no responses. -/
def opPlain : Operation := { operation_id := none, summary := none, responses := [] }

/-- A path item exposing only a get operation. -/
def itemGetPlain : PathItem := { get := some opPlain, post := none, put := none, delete := none }

/-- An info map holding the three string fields the header comment reads. -/
def infoMini : List (String × Value) := [("version", Value.vstr "1"), ("title", Value.vstr "t"), ("description", Value.vstr "d")]

/-- A small, fully populated document. -/
def swaggerMini : Swagger := { info := infoMini, definitions := [("User", defnUser)], paths := [("/users", itemGetPlain)], schemes := some ["https"], host := some "h", basePath := some "/v" }

/-- An array property whose flattened map has no `items` entry. -/
def propArrayNoItems : Property := { property_type := some "array", format := none, additional := [], reference := none }

/-- An array property with `items: {type: integer}`. -/
def propArrayInt : Property := { property_type := some "array", format := none, additional := [("items", Value.vobj [("type", Value.vstr "integer")])], reference := none }

/-- An object property referencing `#/definitions/User` (prefixed form). -/
def propObjRef : Property := { property_type := some "object", format := none, additional := [], reference := some "#/definitions/User" }

/-- An object property with no reference. -/
def propObjNoRef : Property := { property_type := some "object", format := none, additional := [], reference := none }

/-- An operation whose explicit id is the literal string `unknown`. -/
def opUnknown : Operation := { operation_id := some "unknown", summary := none, responses := [] }

/-- An operation with the explicit id `list_users`. -/
def opNamed : Operation := { operation_id := some "list_users", summary := none, responses := [] }

/-- A schema whose reference contains `#/definitions/` twice. -/
def schemaDouble : Schema := { schema_type := none, reference := some "#/definitions/A#/definitions/B" }

/-- A `"200"` response carrying `schemaDouble`. -/
def respDouble : Response := { description := "ok", response_schema := some schemaDouble }

/-- An operation whose `"200"` reference contains the prefix twice. -/
def opDouble : Operation := { operation_id := none, summary := none, responses := [("200", respDouble)] }

/-- An info map lacking the `description` key (a document that still parses:
serde places no constraint on the keys of the free-form info map). -/
def infoNoDescription : List (String × Value) := [("version", Value.vstr "1"), ("title", Value.vstr "t")]

/-- A document whose info map lacks `description`. -/
def swaggerNoDescription : Swagger := { info := infoNoDescription, definitions := [], paths := [], schemes := some ["https"], host := some "h", basePath := some "/v" }

/-- A document whose paths map enumerates `/a` before `/b`. -/
def swaggerOrder1 : Swagger := { info := infoMini, definitions := [], paths := [("/a", itemGetPlain), ("/b", itemGetPlain)], schemes := some ["https"], host := some "h", basePath := some "/v" }

/-- The same document with the opposite paths iteration order, as another
run's hash-map iteration may produce it. -/
def swaggerOrder2 : Swagger := { info := infoMini, definitions := [], paths := [("/b", itemGetPlain), ("/a", itemGetPlain)], schemes := some ["https"], host := some "h", basePath := some "/v" }

/-- A path whose third segment contains a brace expression embedded in a
larger segment, with the same name as a real placeholder segment. -/
def pathEmbedded : String := "/a/\x7bid\x7d/b\x7bid\x7dc"

/-- A path whose only brace expression is embedded in a larger segment. -/
def pathEmbeddedOnly : String := "/a/b\x7bid\x7dc"


/-! ## Sanity checks: the embedding reproduces the documented end-to-end examples -/

/-- The end-to-end operation example: `/users/{id}` with a get operation
lacking an id and a `"200"` response referencing `#/definitions/User`. -/
theorem sanity_service_method_example :
    generate_service_method "get" "/users/\x7bid\x7d" opGetUser "typescript" =
      "export async function getUsersById(id: string, config?: any): Promise<User> \x7b\n    const response = await axios.get(`/users/$\x7bid\x7d`, config);\n    return response.data;\n\x7d\n\n" := by
  decide

/-- The end-to-end interface example: schema `User` with `{id: integer,
name: string}` and required `["id"]`. -/
theorem sanity_interface_example :
    generate_typescript_interface swaggerMini "User" defnUser "2026-10-12" =
      some ("/*\n * This file was generated by swagger-genereator\n * Do not modify this file manually.\n * Version: 1\n * Title: t\n * Description: d\n * Author: Muhtalip Dede\n * Generated on: 2026-10-12 */\n\n"
        ++ "export interface User \x7b\n    id: number;\n    name?: string;\n\x7d\n") := by
  decide

/-! ## Helper lemmas -/

/-- A string with `", "` appended is never empty. -/
theorem append_comma_space_ne_empty (x : String) : x ++ ", " ≠ "" := by
  intro hcontra
  have hlen := congrArg String.length hcontra
  rw [String.length_append] at hlen
  have h2 : (", ").length = 2 := rfl
  have h0 : ("").length = 0 := rfl
  omega

/-- For a nonempty parameter list, `params_declaration` is the comma join
of the typed parameters followed by `", "`. -/
theorem params_declaration_of_ne (ps : List String) (h : ps ≠ []) :
    params_declaration ps = join_with ", " (ps.map (fun param => param ++ ": string")) ++ ", " := by
  simp [params_declaration, h]

/-- For a nonempty parameter list, `params_declaration` is nonempty. -/
theorem params_declaration_ne_empty (ps : List String) (h : ps ≠ []) :
    params_declaration ps ≠ "" := by
  rw [params_declaration_of_ne ps h]
  exact append_comma_space_ne_empty _

/-- `replaceAllAux` leaves an input without any occurrence of the pattern
unchanged (given enough fuel). -/
theorem replaceAllAux_no_occurrence (pat rep : List Char) :
    ∀ (fuel : Nat) (s : List Char), ¬ (pat <:+: s) → s.length ≤ fuel →
      replaceAllAux fuel s pat rep = s := by
  intro fuel
  induction fuel with
  | zero => intro s _ _; rfl
  | succ n ih =>
    intro s hinf hlen
    cases s with
    | nil => rfl
    | cons c rest =>
      have hnp : pat.isPrefixOf (c :: rest) = false := by
        cases hp : pat.isPrefixOf (c :: rest) with
        | false => rfl
        | true =>
          exact absurd ((List.isPrefixOf_iff_prefix.mp hp).isInfix) hinf
      have hrest : ¬ (pat <:+: rest) := fun hr => hinf (List.infix_cons hr)
      have hlen' : rest.length ≤ n := by
        simpa [Nat.succ_le_succ_iff] using hlen
      rw [show replaceAllAux (n + 1) (c :: rest) pat rep =
          (if pat.isPrefixOf (c :: rest) then
            rep ++ replaceAllAux n ((c :: rest).drop pat.length) pat rep
          else
            c :: replaceAllAux n rest pat rep) from rfl]
      rw [hnp]
      simp [ih rest hrest hlen']

/-- Replacing a nonempty pattern in `pat ++ name`, where the pattern does not
occur in `name`, yields `rep ++ name`. -/
theorem replaceAllAux_strip (pat rep name : List Char) (hpat : pat ≠ [])
    (hinf : ¬ (pat <:+: name)) :
    replaceAllAux (pat ++ name).length (pat ++ name) pat rep = rep ++ name := by
  cases pat with
  | nil => exact absurd rfl hpat
  | cons q qs =>
    have hpre : (q :: qs).isPrefixOf (q :: (qs ++ name)) = true :=
      List.isPrefixOf_iff_prefix.mpr (List.prefix_append (q :: qs) name)
    have hdrop : (q :: (qs ++ name)).drop (q :: qs).length = name :=
      List.drop_left (q :: qs) name
    rw [show (q :: qs) ++ name = q :: (qs ++ name) from rfl, List.length_cons]
    rw [show replaceAllAux ((qs ++ name).length + 1) (q :: (qs ++ name)) (q :: qs) rep =
        (if (q :: qs).isPrefixOf (q :: (qs ++ name)) then
          rep ++ replaceAllAux ((qs ++ name).length) ((q :: (qs ++ name)).drop (q :: qs).length) (q :: qs) rep
        else
          q :: replaceAllAux ((qs ++ name).length) (qs ++ name) (q :: qs) rep) from rfl]
    rw [hpre]
    simp only [if_true]
    rw [hdrop]
    rw [replaceAllAux_no_occurrence (q :: qs) rep ((qs ++ name).length) name hinf (by simp)]

/-- `rust_replace` on a string of the shape `pat ++ name`, with the pattern
absent from `name`, strips exactly the leading pattern occurrence. -/
theorem rust_replace_strip (pat name : String) (hpat : pat.data ≠ [])
    (hinf : ¬ (pat.data <:+: name.data)) :
    rust_replace (pat ++ name) pat "" = name := by
  rw [rust_replace, if_neg hpat]
  have hdata : (pat ++ name).data = pat.data ++ name.data := String.data_append _ _
  rw [hdata]
  rw [replaceAllAux_strip pat.data ("").data name.data hpat hinf]
  rfl

/-- A segment that starts with `{` and ends with `}` is exactly `{` followed
by its inner text followed by `}`. -/
theorem braceInner_reconstruct (seg : String) (h1 : startsWithChar seg lbrace = true)
    (h2 : endsWithChar seg rbrace = true) :
    seg.data = lbrace :: ((braceInner seg).data ++ [rbrace]) := by
  obtain ⟨l⟩ := seg
  cases l with
  | nil => exact absurd h1 (by decide)
  | cons c rest =>
    have hc : c = lbrace := eq_of_beq h1
    subst hc
    cases rest with
    | nil => exact absurd h2 (by decide)
    | cons r rs =>
      have hne : (r :: rs) ≠ [] := List.cons_ne_nil r rs
      have hq : (lbrace :: r :: rs).getLast? = some ((r :: rs).getLast hne) := by
        rw [List.getLast?_eq_getLast (lbrace :: r :: rs) (List.cons_ne_nil _ _)]
        congr 1
      have hbeq : ((r :: rs).getLast hne == rbrace) = true := by
        unfold endsWithChar at h2
        rw [hq] at h2
        exact h2
      have hlast : (r :: rs).getLast hne = rbrace := eq_of_beq hbeq
      show lbrace :: r :: rs = lbrace :: ((r :: rs).dropLast ++ [rbrace])
      rw [← hlast, List.dropLast_append_getLast hne]

/-- Every parameter produced by the extraction loop comes from a segment of
the input list that is exactly `{` ++ parameter ++ `}`. -/
theorem extract_path_params_list_mem (l : List String) :
    ∀ p ∈ extract_path_params_list l, ∃ seg ∈ l, seg.data = lbrace :: (p.data ++ [rbrace]) := by
  induction l with
  | nil => intro p hp; exact absurd hp (by simp [extract_path_params_list])
  | cons seg rest ih =>
    intro p hp
    by_cases hcond : (startsWithChar seg lbrace && endsWithChar seg rbrace) = true
    · rw [show extract_path_params_list (seg :: rest) =
          (if startsWithChar seg lbrace && endsWithChar seg rbrace then
            braceInner seg :: extract_path_params_list rest
          else
            extract_path_params_list rest) from rfl, if_pos hcond] at hp
      rcases List.mem_cons.mp hp with h | h
      · subst h
        refine ⟨seg, List.mem_cons_self _ _, ?_⟩
        have hs : startsWithChar seg lbrace = true := (Bool.and_eq_true _ _).mp hcond |>.1
        have he : endsWithChar seg rbrace = true := (Bool.and_eq_true _ _).mp hcond |>.2
        exact braceInner_reconstruct seg hs he
      · obtain ⟨seg', hmem, hdata⟩ := ih p h
        exact ⟨seg', List.mem_cons_of_mem _ hmem, hdata⟩
    · rw [show extract_path_params_list (seg :: rest) =
          (if startsWithChar seg lbrace && endsWithChar seg rbrace then
            braceInner seg :: extract_path_params_list rest
          else
            extract_path_params_list rest) from rfl, if_neg hcond] at hp
      obtain ⟨seg', hmem, hdata⟩ := ih p hp
      exact ⟨seg', List.mem_cons_of_mem _ hmem, hdata⟩

/-- The header comment succeeds whenever the info map holds string values
under `version`, `title` and `description`. -/
theorem generate_info_comment_isSome (swagger : Swagger) (generated_date : String)
    (hver : ∃ v, lookupKV "version" swagger.info = some (Value.vstr v))
    (htit : ∃ t, lookupKV "title" swagger.info = some (Value.vstr t))
    (hdesc : ∃ d, lookupKV "description" swagger.info = some (Value.vstr d)) :
    (generate_info_comment swagger generated_date).isSome = true := by
  obtain ⟨v, hv⟩ := hver
  obtain ⟨t, ht⟩ := htit
  obtain ⟨d, hd⟩ := hdesc
  unfold generate_info_comment
  rw [hv, ht, hd]
  rfl

/-- The type resolution succeeds for every property whose `array` case has
an `items` entry. -/
theorem ts_type_isSome (prop : Property)
    (h : prop.property_type = some "array" → (lookupKV "items" prop.additional).isSome = true) :
    (ts_type prop).isSome = true := by
  unfold ts_type
  split <;> try rfl
  next heq =>
    have h2 := h heq
    cases hk : lookupKV "items" prop.additional with
    | none => rw [hk] at h2; exact absurd h2 (by simp)
    | some items => rfl

/-- The property loop succeeds when every array property has an `items`
entry. -/
theorem render_properties_isSome (required : Option (List String)) (props : List (String × Property))
    (h : ∀ pp ∈ props, pp.2.property_type = some "array" → (lookupKV "items" pp.2.additional).isSome = true) :
    (render_properties required props).isSome = true := by
  induction props with
  | nil => rfl
  | cons pp rest ih =>
    obtain ⟨prop_name, prop⟩ := pp
    have h1 : (ts_type prop).isSome = true :=
      ts_type_isSome prop (h (prop_name, prop) (List.mem_cons_self _ _))
    have h2 : (render_properties required rest).isSome = true :=
      ih (fun q hq => h q (List.mem_cons_of_mem _ hq))
    rw [show render_properties required ((prop_name, prop) :: rest) =
        (match ts_type prop with
        | none => none
        | some t =>
          match render_properties required rest with
          | none => none
          | some restS => some (render_line required prop_name t ++ restS)) from rfl]
    cases ht : ts_type prop with
    | none => rw [ht] at h1; exact absurd h1 (by simp)
    | some t =>
      cases hr : render_properties required rest with
      | none => rw [hr] at h2; exact absurd h2 (by simp)
      | some restS => rfl

/-- A missing `"200"` reference falls back to `any`. -/
theorem response_schema_name_of_none (op : Operation) (h : ref200 op = none) :
    response_schema_name op = "any" := by
  unfold response_schema_name
  rw [h]
  rfl

/-- A string starts with any string it extends on the right. -/
theorem startsWithStr_append (pat name : String) :
    startsWithStr (pat ++ name) pat = true := by
  unfold startsWithStr
  rw [String.data_append]
  exact List.isPrefixOf_iff_prefix.mpr (List.prefix_append _ _)

/-! ## Claim theorems -/

/-- C1: a property is rendered non-optional (empty marker) iff the schema's
required set is present and contains it, or the required set is absent; it is
rendered optional (`?` marker) iff the required set is present and does not
contain it. -/
theorem optionality_iff_required (required : Option (List String)) (p : String) :
    (optional_marker required p = "" ↔ ((∃ r, required = some r ∧ p ∈ r) ∨ required = none)) ∧
    (optional_marker required p = "?" ↔ (∃ r, required = some r ∧ p ∉ r)) := by
  cases required with
  | none => constructor <;> simp [optional_marker]
  | some r =>
    by_cases h : p ∈ r
    · have hc : r.contains p = true := by
        simpa [List.contains, List.elem_iff] using h
      constructor
      · simp [optional_marker, hc, h]
      · simp [optional_marker, hc, h]
    · have hc : r.contains p = false := by
        simpa [List.contains, List.elem_iff] using h
      constructor
      · simp [optional_marker, hc, h]
      · simp [optional_marker, hc, h]

/-- C2 counterexample: an array property whose flattened map has no `items`
entry makes the emitter panic (`none` in the model) instead of producing the
generic array type. -/
theorem array_without_items_cex :
    ts_type propArrayNoItems = none ∧ ts_type propArrayNoItems ≠ some "any[]" := by
  decide

/-- C2 amended: when the `items` entry is present, the array case renders
`number[]`, `string[]` or `boolean[]` for item kind `integer`, `string` or
`boolean`, and `any[]` for any other or missing item kind; when the `items`
entry is absent, the emitter panics. -/
theorem array_item_type_rendering (prop : Property) (items : Value)
    (harr : prop.property_type = some "array")
    (hitems : lookupKV "items" prop.additional = some items) :
    ts_type prop = some (match (items.get "type").bind Value.as_str with
      | some "integer" => "number[]"
      | some "string" => "string[]"
      | some "boolean" => "boolean[]"
      | _ => "any[]") := by
  obtain ⟨pt, fmt, add, ref⟩ := prop
  simp only at harr hitems
  subst harr
  rw [show ts_type ⟨some "array", fmt, add, ref⟩ =
      (match lookupKV "items" add with
      | none => none
      | some items =>
        some (match (items.get "type").bind Value.as_str with
          | some "integer" => "number[]"
          | some "string" => "string[]"
          | some "boolean" => "boolean[]"
          | _ => "any[]")) from rfl]
  rw [hitems]

/-- C2 witness: a concrete array property with `items: {type: integer}`
renders `number[]`. -/
theorem array_item_type_rendering_witness :
    ts_type propArrayInt = some "number[]" :=
  array_item_type_rendering propArrayInt (Value.vobj [("type", Value.vstr "integer")]) rfl rfl

/-- C3 counterexample: the interface emitter renders an object property's
reference string verbatim; the `#/definitions/` prefix is not stripped. -/
theorem object_reference_not_stripped_cex :
    ts_type propObjRef = some "#/definitions/User" ∧ ts_type propObjRef ≠ some "User" := by
  decide

/-- C3 amended: for an object property, the rendered type is the reference
string exactly as stored (no prefix stripping), or `any` when no reference
is present. -/
theorem object_reference_verbatim (prop : Property)
    (hobj : prop.property_type = some "object") :
    ts_type prop = some (match prop.reference with
      | some ref_name => ref_name
      | none => "any") := by
  obtain ⟨pt, fmt, add, ref⟩ := prop
  simp only at hobj
  subst hobj
  rfl

/-- C3 witness: an object property with no reference renders `any`. -/
theorem object_reference_verbatim_witness :
    ts_type propObjNoRef = some "any" :=
  object_reference_verbatim propObjNoRef rfl

/-- C4 counterexample: an operation that explicitly supplies the identifier
`unknown` is NOT named from that identifier; the path-derived fallback is
used instead (`getUsers`, not `getUnknown`). -/
theorem operation_id_unknown_collision_cex :
    opUnknown.operation_id = some "unknown" ∧
    base_method_name "get" opUnknown "/users" = "getUsers" ∧
    base_method_name "get" opUnknown "/users" ≠ "getUnknown" := by
  decide

/-- C4 amended: the callable base name is the lowercase method followed by
the camel-cased base identifier, where an explicit identifier other than the
literal `unknown` is used as supplied, and a missing identifier or the
literal identifier `unknown` falls back to the path split on `/` with empty
and `{`-initial segments discarded, joined with `_`. -/
theorem naming_derivation_amended (method path : String) (op : Operation) :
    base_method_name method op path
      = rust_to_lowercase method ++ camel_case (final_operation_id op path) ∧
    (∀ id, op.operation_id = some id → id ≠ "unknown" → final_operation_id op path = id) ∧
    ((op.operation_id = none ∨ op.operation_id = some "unknown") →
      final_operation_id op path = fallback_operation_id path) ∧
    fallback_operation_id path
      = join_with "_" ((rust_split '/' path).filter
          (fun s => decide (¬ s = "") && !(startsWithChar s lbrace))) := by
  refine ⟨rfl, ?_, ?_, rfl⟩
  · intro id hid hne
    simp [final_operation_id, hid, hne]
  · intro h
    rcases h with h | h
    · simp [final_operation_id, h]
    · simp [final_operation_id, h]

/-- C4 witness: an explicit id `list_users` is used and camel-cased; a
missing id on `/users/{id}` falls back to the literal segment `users`. -/
theorem naming_derivation_amended_witness :
    final_operation_id opNamed "/users" = "list_users" ∧
    final_operation_id opPlain "/users/\x7bid\x7d" = "users" ∧
    base_method_name "get" opNamed "/users" = "getListUsers" := by
  refine ⟨?_, ?_, ?_⟩
  · exact (naming_derivation_amended "get" "/users" opNamed).2.1 "list_users" rfl (by decide)
  · exact ((naming_derivation_amended "get" "/users/\x7bid\x7d" opPlain).2.2.1 (Or.inl rfl)).trans
      (by decide)
  · have h1 := (naming_derivation_amended "get" "/users" opNamed).1
    have h2 := (naming_derivation_amended "get" "/users" opNamed).2.1 "list_users" rfl (by decide)
    rw [h1, h2]
    decide

/-- C5: for a path with at least one whole-segment `{param}` placeholder,
the emitted name is the base name with the literal suffix `ById` appended
(irrespective of placeholder count or names), and the parameter declaration
lists one `name: string` entry per placeholder in left-to-right order; for a
path with no placeholder, no suffix is appended and the declaration is
empty.  The final conjunct pins the emitted signature layout: path
parameters, then the optional body parameter, then the trailing config
parameter. -/
theorem path_params_and_suffix (method path : String) (op : Operation) (lang : String) :
    (extract_path_params path ≠ [] →
      full_method_name method op path = base_method_name method op path ++ "ById" ∧
      params_declaration (extract_path_params path)
        = join_with ", " ((extract_path_params path).map (fun param => param ++ ": string")) ++ ", ") ∧
    (extract_path_params path = [] →
      full_method_name method op path = base_method_name method op path ∧
      params_declaration (extract_path_params path) = "") ∧
    generate_service_method method path op lang
      = "export async function " ++ full_method_name method op path
        ++ "(" ++ params_declaration (extract_path_params path) ++ data_param method
        ++ "config?: any): " ++ response_type op lang
        ++ " \x7b\n    const response = await axios." ++ method
        ++ "(`" ++ formatted_path path (extract_path_params path) ++ "`, "
        ++ body_arg method ++ "config);\n    return response.data;\n\x7d\n\n" := by
  refine ⟨?_, ?_, rfl⟩
  · intro h
    refine ⟨?_, params_declaration_of_ne _ h⟩
    rw [full_method_name]
    rw [if_neg (params_declaration_ne_empty _ h)]
  · intro h
    have hpd : params_declaration (extract_path_params path) = "" := by
      rw [h]; rfl
    refine ⟨?_, hpd⟩
    rw [full_method_name, if_pos hpd]

/-- C5 witness: `/users/{id}` gets the suffix and the `id: string`
declaration; `/users` gets neither. -/
theorem path_params_and_suffix_witness :
    (full_method_name "get" opPlain "/users/\x7bid\x7d"
        = base_method_name "get" opPlain "/users/\x7bid\x7d" ++ "ById" ∧
      params_declaration (extract_path_params "/users/\x7bid\x7d")
        = join_with ", " ((extract_path_params "/users/\x7bid\x7d").map (fun param => param ++ ": string")) ++ ", ") ∧
    (full_method_name "get" opPlain "/users" = base_method_name "get" opPlain "/users" ∧
      params_declaration (extract_path_params "/users") = "") := by
  constructor
  · exact (path_params_and_suffix "get" "/users/\x7bid\x7d" opPlain "typescript").1 (by decide)
  · exact (path_params_and_suffix "get" "/users" opPlain "typescript").2.1 (by decide)

/-- C6: get and delete operations have no body parameter and pass no body
argument; every other method gets exactly one optional untyped body
parameter and passes `data`; the signature places path parameters first,
then the body parameter, then the trailing `config?: any`, which is always
last. -/
theorem body_and_config_params (method path : String) (op : Operation) (lang : String) :
    ((method = "get" ∨ method = "delete") → data_param method = "" ∧ body_arg method = "") ∧
    (¬(method = "get" ∨ method = "delete") →
      data_param method = "data?: any, " ∧ body_arg method = "data, ") ∧
    generate_service_method method path op lang
      = "export async function " ++ full_method_name method op path
        ++ "(" ++ params_declaration (extract_path_params path) ++ data_param method
        ++ "config?: any): " ++ response_type op lang
        ++ " \x7b\n    const response = await axios." ++ method
        ++ "(`" ++ formatted_path path (extract_path_params path) ++ "`, "
        ++ body_arg method ++ "config);\n    return response.data;\n\x7d\n\n" := by
  refine ⟨?_, ?_, rfl⟩
  · intro h
    rcases h with h | h <;> subst h <;> exact ⟨rfl, rfl⟩
  · intro h
    push_neg at h
    obtain ⟨h1, h2⟩ := h
    have hd : data_param method = "data?: any, " := by
      simp [data_param, h1, h2]
    refine ⟨hd, ?_⟩
    rw [body_arg, hd]
    rfl

/-- C6 witness: concrete get and post methods. -/
theorem body_and_config_params_witness :
    (data_param "get" = "" ∧ body_arg "get" = "") ∧
    (data_param "post" = "data?: any, " ∧ body_arg "post" = "data, ") := by
  constructor
  · exact (body_and_config_params "get" "/x" opPlain "typescript").1 (Or.inl rfl)
  · exact (body_and_config_params "post" "/x" opPlain "typescript").2.1 (by decide)

/-- C7 counterexample: for a `"200"` reference containing `#/definitions/`
twice, the code removes every occurrence (`str::replace`), not only the
prefix, so the resulting type name is `AB` instead of the bare
`A#/definitions/B` that prefix stripping would give. -/
theorem return_type_double_occurrence_cex :
    ref200 opDouble = some "#/definitions/A#/definitions/B" ∧
    response_schema_name opDouble = "AB" ∧
    response_schema_name opDouble ≠ "A#/definitions/B" := by
  decide

/-- C7 amended: the return type is computed solely from the `"200"` response
(the final result is a function of that lookup alone); a missing response,
schema or reference yields `any`; a reference not starting with
`#/definitions/` is used verbatim; a reference of the form
`#/definitions/name` where `#/definitions/` does not reoccur inside `name`
yields `name` (for references containing the substring again, every
occurrence is removed); and for typescript the type is wrapped as
`Promise<...>`. -/
theorem return_type_resolution_amended :
    (∀ op₁ op₂ : Operation,
      lookupKV "200" op₁.responses = lookupKV "200" op₂.responses →
      response_schema_name op₁ = response_schema_name op₂) ∧
    (∀ op : Operation, ref200 op = none → response_schema_name op = "any") ∧
    (∀ (op : Operation) (r : String), ref200 op = some r →
      startsWithStr r "#/definitions/" = false → response_schema_name op = r) ∧
    (∀ (op : Operation) (name : String),
      ref200 op = some ("#/definitions/" ++ name) →
      ¬ (("#/definitions/").data <:+: name.data) →
      response_schema_name op = name) ∧
    (∀ op : Operation, response_type op "typescript" = "Promise<" ++ response_schema_name op ++ ">") := by
  refine ⟨?_, ?_, ?_, ?_, ?_⟩
  · intro op₁ op₂ h
    have hr : ref200 op₁ = ref200 op₂ := by
      unfold ref200
      rw [h]
    unfold response_schema_name
    rw [hr]
  · exact response_schema_name_of_none
  · intro op r hs hns
    unfold response_schema_name
    rw [hs]
    show (if startsWithStr r "#/definitions/" = true then rust_replace r "#/definitions/" "" else r) = r
    rw [hns]
    rfl
  · intro op name hs hinf
    unfold response_schema_name
    rw [hs]
    show (if startsWithStr ("#/definitions/" ++ name) "#/definitions/" = true then
        rust_replace ("#/definitions/" ++ name) "#/definitions/" ""
      else "#/definitions/" ++ name) = name
    rw [startsWithStr_append]
    simp only [if_true]
    exact rust_replace_strip "#/definitions/" name (by decide) hinf
  · intro op
    rfl

/-- C7 witness: the fixture operation referencing `#/definitions/User`
resolves to `User` and return type `Promise<User>`. -/
theorem return_type_resolution_amended_witness :
    response_schema_name opGetUser = "User" ∧
    response_type opGetUser "typescript" = "Promise<User>" := by
  have h1 := return_type_resolution_amended.2.2.2.1 opGetUser "User" (by decide) (by decide)
  have h2 := return_type_resolution_amended.2.2.2.2 opGetUser
  exact ⟨h1, by rw [h2, h1]; decide⟩

/-- C8 counterexample: a document that parses into the model (the info map
is free-form, so a missing `description` key is a legal parse) makes the
whole generation run fail: `swagger.info["description"]` panics inside the
header-comment writer, modelled as `none`. -/
theorem generation_fails_on_missing_info_cex :
    (lookupKV "description" swaggerNoDescription.info).isSome = false ∧
    generate_info_comment swaggerNoDescription "2026-10-12" = none ∧
    generate_all swaggerNoDescription "2026-10-12" [] = none := by
  decide

/-- C8 amended: generation succeeds whenever the info map carries string
`version`/`title`/`description` entries, the transport metadata (a nonempty
schemes list, a host and a base path) is present, and every array property
carries an `items` entry; under those presence conditions the genuinely
optional pieces degrade as documented: a missing operation id falls back to
the path-derived name, a missing `"200"` schema or reference falls back to
`any`, and a missing required set renders every property non-optional.
(Absent info fields, absent transport metadata or a missing `items` entry
abort the run instead of degrading.) -/
theorem generation_total_under_presence (swagger : Swagger) (generated_date : String)
    (interface_files : List String)
    (hver : ∃ v, lookupKV "version" swagger.info = some (Value.vstr v))
    (htit : ∃ t, lookupKV "title" swagger.info = some (Value.vstr t))
    (hdesc : ∃ d, lookupKV "description" swagger.info = some (Value.vstr d))
    (hschemes : ∃ s ss, swagger.schemes = some (s :: ss))
    (hhost : swagger.host.isSome = true)
    (hbase : swagger.basePath.isSome = true)
    (hitems : ∀ nd ∈ swagger.definitions, ∀ pp ∈ nd.2.properties.getD [],
      pp.2.property_type = some "array" → (lookupKV "items" pp.2.additional).isSome = true) :
    (generate_all swagger generated_date interface_files).isSome = true ∧
    (∀ (op : Operation) (path : String), op.operation_id = none →
      final_operation_id op path = fallback_operation_id path) ∧
    (∀ op : Operation, ref200 op = none → response_schema_name op = "any") ∧
    (∀ p : String, optional_marker none p = "") := by
  have hic := generate_info_comment_isSome swagger generated_date hver htit hdesc
  have hone : ∀ nd ∈ swagger.definitions,
      (generate_typescript_interface swagger nd.1 nd.2 generated_date).isSome = true := by
    intro nd hnd
    obtain ⟨name, defn⟩ := nd
    show (generate_typescript_interface swagger name defn generated_date).isSome = true
    unfold generate_typescript_interface
    cases hh : generate_info_comment swagger generated_date with
    | none => rw [hh] at hic; exact absurd hic (by simp)
    | some header =>
      cases hp : defn.properties with
      | none => rfl
      | some props =>
        have hrp : (render_properties defn.required props).isSome = true := by
          apply render_properties_isSome
          intro pp hpp
          exact hitems (name, defn) hnd pp (by rw [hp]; exact hpp)
        show (match render_properties defn.required props with
          | none => none
          | some body =>
            some (header ++ "export interface " ++ name ++ " \x7b\n" ++ body ++ "\x7d\n")).isSome = true
        cases hr : render_properties defn.required props with
        | none => rw [hr] at hrp; exact absurd hrp (by simp)
        | some body => rfl
  have hints : ∀ (l : List (String × Definition)),
      (∀ nd ∈ l, (generate_typescript_interface swagger nd.1 nd.2 generated_date).isSome = true) →
      (generate_interfaces swagger generated_date l).isSome = true := by
    intro l
    induction l with
    | nil => intro _; rfl
    | cons nd rest ih =>
      intro hall
      obtain ⟨name, defn⟩ := nd
      have h1 := hall (name, defn) (List.mem_cons_self _ _)
      have h2 := ih (fun q hq => hall q (List.mem_cons_of_mem _ hq))
      rw [show generate_interfaces swagger generated_date ((name, defn) :: rest) =
          (match generate_typescript_interface swagger name defn generated_date with
          | none => none
          | some text =>
            match generate_interfaces swagger generated_date rest with
            | none => none
            | some restL => some ((name, text) :: restL)) from rfl]
      cases ht : generate_typescript_interface swagger name defn generated_date with
      | none => rw [ht] at h1; exact absurd h1 (by simp)
      | some text =>
        cases hrest : generate_interfaces swagger generated_date rest with
        | none => rw [hrest] at h2; exact absurd h2 (by simp)
        | some restL => rfl
  have hserv : (generate_service swagger "typescript" generated_date interface_files).isSome = true := by
    obtain ⟨s, ss, hsch⟩ := hschemes
    cases hh : generate_info_comment swagger generated_date with
    | none => rw [hh] at hic; exact absurd hic (by simp)
    | some header =>
      cases hhostc : swagger.host with
      | none => rw [hhostc] at hhost; exact absurd hhost (by simp)
      | some host =>
        cases hbpc : swagger.basePath with
        | none => rw [hbpc] at hbase; exact absurd hbase (by simp)
        | some bp =>
          unfold generate_service
          rw [hh, hsch, hhostc, hbpc]
          rfl
  refine ⟨?_, ?_, response_schema_name_of_none, fun p => rfl⟩
  · unfold generate_all
    have hi := hints swagger.definitions hone
    cases hgi : generate_interfaces swagger generated_date swagger.definitions with
    | none => rw [hgi] at hi; exact absurd hi (by simp)
    | some interfaces =>
      cases hgs : generate_service swagger "typescript" generated_date interface_files with
      | none => rw [hgs] at hserv; exact absurd hserv (by simp)
      | some service => rfl
  · intro op path h
    simp [final_operation_id, h]

/-- C8 witness: the fully populated fixture document generates successfully,
and the degradations hold at concrete inputs. -/
theorem generation_total_under_presence_witness :
    (generate_all swaggerMini "2026-10-12" ["User.ts"]).isSome = true ∧
    final_operation_id opPlain "/users" = fallback_operation_id "/users" ∧
    response_schema_name opPlain = "any" ∧
    optional_marker none "id" = "" := by
  have h := generation_total_under_presence swaggerMini "2026-10-12" ["User.ts"]
    ⟨"1", rfl⟩ ⟨"t", rfl⟩ ⟨"d", rfl⟩ ⟨"https", [], rfl⟩ rfl rfl (by decide)
  exact ⟨h.1, h.2.1 opPlain "/users" rfl, h.2.2.1 opPlain rfl, h.2.2.2 "id"⟩

/-- C9 counterexample: two runs on the same unchanged document need not
produce byte-identical artifacts even with the same embedded date.  The two
fixture documents hold identical data — the paths maps are permutations of
each other with equal lookups everywhere else — and differ only in the
iteration order the std `HashMap` happens to produce (which Rust does not
fix across processes); the generated service modules differ. -/
theorem output_depends_on_enumeration_order_cex :
    swaggerOrder1.paths.Perm swaggerOrder2.paths ∧
    swaggerOrder1.info = swaggerOrder2.info ∧
    swaggerOrder1.definitions = swaggerOrder2.definitions ∧
    swaggerOrder1.schemes = swaggerOrder2.schemes ∧
    swaggerOrder1.host = swaggerOrder2.host ∧
    swaggerOrder1.basePath = swaggerOrder2.basePath ∧
    generate_service swaggerOrder1 "typescript" "2026-10-12" []
      ≠ generate_service swaggerOrder2 "typescript" "2026-10-12" [] := by
  refine ⟨by decide, rfl, rfl, rfl, rfl, rfl, by decide⟩

/-- C9 amended: the emitted artifacts are a deterministic function of the
document model together with its enumeration orders and the directory
listing, and permuting the paths enumeration permutes the emitted function
blocks (same blocks, possibly different byte order); byte-identical output
across two runs is guaranteed only when the enumeration orders coincide,
which the code does not enforce. -/
theorem methods_permutation_invariance (lang : String)
    (paths₁ paths₂ : List (String × PathItem)) (h : paths₁.Perm paths₂) :
    (paths₁.map (path_item_methods lang)).Perm (paths₂.map (path_item_methods lang)) ∧
    service_methods paths₁ lang = String.join (paths₁.map (path_item_methods lang)) ∧
    service_methods paths₂ lang = String.join (paths₂.map (path_item_methods lang)) :=
  ⟨h.map _, rfl, rfl⟩

/-- C9 witness: the two fixture orders produce permuted method blocks. -/
theorem methods_permutation_invariance_witness :
    ((swaggerOrder1.paths.map (path_item_methods "typescript")).Perm
      (swaggerOrder2.paths.map (path_item_methods "typescript"))) :=
  (methods_permutation_invariance "typescript" swaggerOrder1.paths swaggerOrder2.paths
    (by decide)).1

/-- C10 counterexample: in `/a/{id}/b{id}c` the segment `b{id}c` carries an
embedded brace expression that is not a whole-segment placeholder, yet the
URL rewriting does not leave it untouched: because the same name `id` is
also a real placeholder, the textual `replace` rewrites the embedded
occurrence too, producing `/a/${id}/b${id}c`. -/
theorem embedded_brace_rewritten_cex :
    ("b\x7bid\x7dc" ∈ rust_split '/' pathEmbedded) ∧
    startsWithChar "b\x7bid\x7dc" lbrace = false ∧
    extract_path_params pathEmbedded = ["id"] ∧
    formatted_path pathEmbedded (extract_path_params pathEmbedded) = "/a/$\x7bid\x7d/b$\x7bid\x7dc" ∧
    formatted_path pathEmbedded (extract_path_params pathEmbedded) ≠ "/a/$\x7bid\x7d/b\x7bid\x7dc" := by
  decide

/-- C10 amended: a `{name}` expression is recognized only when it is an
entire `/`-delimited segment: every extracted parameter stems from a segment
of the exact shape `{` ++ name ++ `}`; and when a path's brace expressions
are all embedded (so nothing is extracted), no function parameter is
generated, the URL template is left entirely un-rewritten, and the `ById`
suffix is not triggered.  (An embedded expression sharing its name with an
extracted whole-segment placeholder is rewritten by the textual
substitution, per the counterexample.) -/
theorem placeholder_whole_segment (method : String) (op : Operation) (path : String) :
    (∀ p ∈ extract_path_params path,
      ∃ seg ∈ rust_split '/' path, seg.data = lbrace :: (p.data ++ [rbrace])) ∧
    (extract_path_params path = [] →
      formatted_path path (extract_path_params path) = path ∧
      params_declaration (extract_path_params path) = "" ∧
      full_method_name method op path = base_method_name method op path) := by
  constructor
  · exact extract_path_params_list_mem (rust_split '/' path)
  · intro h
    have hpd : params_declaration (extract_path_params path) = "" := by
      rw [h]; rfl
    refine ⟨?_, hpd, ?_⟩
    · rw [h]; rfl
    · rw [full_method_name, if_pos hpd]

/-- C10 witness: a path whose only brace expression is embedded gets no
parameters, an unchanged URL template and no suffix. -/
theorem placeholder_whole_segment_witness :
    formatted_path pathEmbeddedOnly (extract_path_params pathEmbeddedOnly) = pathEmbeddedOnly ∧
    params_declaration (extract_path_params pathEmbeddedOnly) = "" ∧
    full_method_name "get" opPlain pathEmbeddedOnly = base_method_name "get" opPlain pathEmbeddedOnly :=
  (placeholder_whole_segment "get" opPlain pathEmbeddedOnly).2 (by decide)
end SwaggerGen
